import Mathlib

/-!
Verification of the regex-tester match-and-render pipeline
(`src/regex-tester/app.py`, `RegexTesterApp._update_matches` and friends).

Strings are modelled as `List Char` (named `Str` below); Python string
slicing `s[a:b]` becomes `(s.drop a).take (b - a)`.  The external regex
engine (`re.compile` / `finditer`) is out of scope for the application
code and is abstracted as function parameters; where a claim is about the
engine's scan semantics, the scanner is modelled from the spec.
-/

set_option autoImplicit false

abbrev Str := List Char

/-- The fixed set of markup-significant characters from the escaping
regex `([*_`\[\]\(\)!#\-\+\.])` at app.py lines 166/170/181/189/196/214. -/
def isMarkupChar (c : Char) : Bool :=
  c = '*' || c = '_' || c = '`' || c = '[' || c = ']' ||
  c = '(' || c = ')' || c = '!' || c = '#' || c = '-' || c = '+' || c = '.'

/-- `re.sub(r"([*_`\[\]\(\)!#\-\+\.])", r"\\\1", s)`: every markup-significant
character is preceded by a backslash, all other characters are kept. -/
def escapeChars : Str → Str
  | [] => []
  | c :: rest =>
    if isMarkupChar c then '\\' :: c :: escapeChars rest
    else c :: escapeChars rest

/-- Left-to-right stripping of the markup produced by the renderer: a
backslash followed by a markup-significant character is an escape (the
backslash is dropped), a double star is an emphasis marker (dropped),
every other character is kept. -/
def stripMarkup : Str → Str
  | [] => []
  | c :: rest =>
    if c = '\\' then
      match rest with
      | [] => [c]
      | d :: rest2 =>
        if isMarkupChar d then d :: stripMarkup rest2
        else c :: stripMarkup (d :: rest2)
    else if c = '*' then
      match rest with
      | [] => [c]
      | d :: rest2 =>
        if d = '*' then stripMarkup rest2
        else c :: stripMarkup (d :: rest2)
    else c :: stripMarkup rest

/-- One match produced by the engine: half-open span `[start, stop)`,
positional capture groups (`None` becomes `Option.none`) and named groups
(`m.groupdict()` as an association list).  `stop` is the Python `end`. -/
structure MatchRecord where
  start : Nat
  stop : Nat
  positionalGroups : List (Option Str)
  namedGroups : List (Str × Option Str)
deriving DecidableEq

/-- The ordering invariant of the match sequence: starting from scan
position `last`, each record satisfies `last ≤ start ≤ stop` and the next
record starts no earlier than this record's `stop`. -/
def chainOk : Nat → List MatchRecord → Bool
  | _, [] => true
  | last, m :: rest =>
    decide (last ≤ m.start) && decide (m.start ≤ m.stop) && chainOk m.stop rest

/-- `match_obj.group(0)`, which for a span `[start, stop)` is the subject
slice `subject[start:stop]`. -/
def matchText (subject : Str) (m : MatchRecord) : Str :=
  (subject.drop m.start).take (m.stop - m.start)

/-- A group value as rendered at app.py lines 181/189: escaped when present,
the literal string `None` when absent. -/
def renderGroupVal : Option Str → Str
  | none => "None".data
  | some g => escapeChars g

/-- `", ".join(...)` in Python, on `List Char` strings. -/
def joinSep (sep : Str) : List Str → Str
  | [] => []
  | [x] => x
  | x :: y :: rest => x ++ sep ++ joinSep sep (y :: rest)

/-- One positional group as rendered: a code span around the value. -/
def groupPart (g : Option Str) : Str :=
  '`' :: (renderGroupVal g ++ ['`'])

/-- One named group as rendered: `name=` followed by a code span. -/
def namedPart (p : Str × Option Str) : Str :=
  p.1 ++ '=' :: '`' :: (renderGroupVal p.2 ++ ['`'])

/-- The `(span=(start, end))` fragment of a detail entry. -/
def spanText (m : MatchRecord) : Str :=
  "(span=(".data ++ Nat.toDigits 10 m.start ++ ", ".data ++
    Nat.toDigits 10 m.stop ++ "))".data

/-- The first line of a detail entry (app.py line 175). -/
def detailHead (subject : Str) (m : MatchRecord) : Str :=
  "- **Match**: `".data ++ escapeChars (matchText subject m) ++ "` ".data ++
    spanText m

/-- The `Groups (n): (...)` line (app.py lines 177-183), present only when
there is at least one positional group. -/
def groupsSection (m : MatchRecord) : Str :=
  if m.positionalGroups = [] then []
  else
    "\n  - Groups (".data ++ Nat.toDigits 10 m.positionalGroups.length ++
      "): (".data ++ joinSep ", ".data (m.positionalGroups.map groupPart) ++
      ")".data

/-- The `Named Groups: {...}` line (app.py lines 185-191), present only when
there is at least one named group. -/
def namedSection (m : MatchRecord) : Str :=
  if m.namedGroups = [] then []
  else
    "\n  - Named Groups: \x7b".data ++
      joinSep ", ".data (m.namedGroups.map namedPart) ++ "\x7d".data

/-- The complete detail entry for one match (app.py lines 175-192). -/
def matchDetail (subject : Str) (m : MatchRecord) : Str :=
  detailHead subject m ++ groupsSection m ++ namedSection m

/-- The loop of app.py lines 159-199: walking the match list from scan
position `last`, it returns the joined highlighted text (escaped non-match
slice, then the escaped match slice wrapped in a double-star emphasis
marker, then the rest; the escaped tail after the final match) together
with the list of per-match detail entries. -/
def renderLoop (subject : Str) : List MatchRecord → Nat → Str × List Str
  | [], last => (escapeChars (subject.drop last), [])
  | m :: rest, last =>
    let nonMatch := escapeChars ((subject.drop last).take (m.start - last))
    let seg := escapeChars (matchText subject m)
    let tail := renderLoop subject rest m.stop
    (nonMatch ++ ('*' :: '*' :: (seg ++ '*' :: '*' :: tail.1)),
      matchDetail subject m :: tail.2)

/-- Outcome of `re.compile(pattern)` as seen by `_update_matches`: success
with an opaque compiled handle of type `π`, a `re.error` (line 141), or any
other exception (line 145).  The engine is external, so `compile` is a
parameter of the controller model. -/
inductive CompileOutcome (π : Type) where
  | ok (compiled : π)
  | reError (msg : Str)
  | exnError (msg : Str)

/-- The net effect of one `_update_matches` run: the final text of the
`#regex_status` label and of the `#match_results` Markdown widget. -/
structure UpdateResult where
  status : Str
  document : Str

def enterPatternStatus : Str := "Regex Status: (Enter a pattern)".data

def enterPatternDoc : Str := "Enter a regex pattern to see matches.".data

def validStatus : Str := "Regex Status: [b green]Valid[/b]".data

def invalidStatus (e : Str) : Str :=
  "Regex Status: [b red]Invalid[/b] - ".data ++ e

def regexErrorDoc (e : Str) : Str :=
  "### Regex Error\n\n```\n".data ++ e ++ "\n```".data

def unexpectedStatus (e : Str) : Str :=
  "Regex Status: [b red]Error[/b] - Unexpected: ".data ++ e

def unexpectedDoc (e : Str) : Str :=
  "### Unexpected Compilation Error\n\n```\n".data ++ e ++ "\n```".data

def enterTestDoc : Str := "Enter a test string to find matches.".data

def matchingErrorStatus (e : Str) : Str :=
  "Regex Status: [b red]Error during matching[/b] - ".data ++ e

def matchingErrorDoc (e : Str) : Str :=
  "### Matching Error\n\n```\n".data ++ e ++ "\n```".data

/-- The no-match document of app.py lines 211-217: the escaped subject when
it is non-empty, the generic message otherwise. -/
def noMatchesDoc (subject : Str) : Str :=
  if subject = [] then "No matches found.".data
  else "No matches found in:\n\n".data ++ escapeChars subject

/-- The result document of app.py lines 206-210, built when the detail list
is non-empty. -/
def resultsDoc (highlighted : Str) (details : List Str) : Str :=
  "### Highlighted Text:\n\n".data ++
    (if highlighted = [] then
      "(No visual text to highlight if all is matched or empty)".data
    else highlighted) ++
    "\n\n### Match Details:\n\n".data ++ joinSep "\n\n".data details

/-- `_update_matches` (app.py lines 121-217), with the external regex
engine abstracted: `compile` is `re.compile`, `scan` runs
`finditer` over the subject and packages the matches (raising is modelled
as `Except.error`).  Returns the final status and document texts. -/
def updateMatches {π : Type} (compile : Str → CompileOutcome π)
    (scan : π → Str → Except Str (List MatchRecord))
    (pattern subject : Str) : UpdateResult :=
  if pattern = [] then
    { status := enterPatternStatus, document := enterPatternDoc }
  else
    match compile pattern with
    | .reError e => { status := invalidStatus e, document := regexErrorDoc e }
    | .exnError e =>
      { status := unexpectedStatus e, document := unexpectedDoc e }
    | .ok compiled =>
      if subject = [] then
        { status := validStatus, document := enterTestDoc }
      else
        match scan compiled subject with
        | .error e =>
          { status := matchingErrorStatus e, document := matchingErrorDoc e }
        | .ok ms =>
          let r := renderLoop subject ms 0
          if r.2 = [] then
            { status := validStatus, document := noMatchesDoc subject }
          else
            { status := validStatus, document := resultsDoc r.1 r.2 }

/-- The controller state: the two reactive fields of `RegexTesterApp`
together with the two output surfaces `_update_matches` writes to. -/
structure AppState where
  regex_pattern : Str
  test_string : Str
  status : Str
  document : Str

/-- `_update_matches` as a state transformer: it reads the two reactive
fields (app.py lines 129-130) and its only writes are
`status_label.update` and `results_markdown.update`. -/
def updateMatchesState {π : Type} (compile : Str → CompileOutcome π)
    (scan : π → Str → Except Str (List MatchRecord))
    (st : AppState) : AppState :=
  let r := updateMatches compile scan st.regex_pattern st.test_string
  { st with status := r.status, document := r.document }

/-- Modelled from the spec: the external engine's anchored match attempt.
`firstMatchAux matchAt p k` scans positions `p, p+1, ...` (at most `k` of
them) for the first position where the pattern matches, returning that
position and the match length — the "leftmost" part of leftmost,
non-overlapping scan semantics. -/
def firstMatchAux (matchAt : Nat → Option Nat) : Nat → Nat → Option (Nat × Nat)
  | _, 0 => none
  | p, k + 1 =>
    match matchAt p with
    | some len => some (p, len)
    | none => firstMatchAux matchAt (p + 1) k

/-- Modelled from the spec: the leftmost match at a position `≥ p` in a
subject of length `n` (positions `p` through `n` are candidates). -/
def firstMatch (matchAt : Nat → Option Nat) (n p : Nat) : Option (Nat × Nat) :=
  firstMatchAux matchAt p (n + 1 - p)

/-- Modelled from the spec: the find-all scan loop behind `finditer`.
After a match over `[q, q+len)` the next search starts at `q+len`, or at
`q+1` when the match was zero-width, so the scan position strictly
increases; `fuel` bounds the recursion and `n + 1 - p` of it suffices. -/
def finditerFuel (matchAt : Nat → Option Nat) (n : Nat) :
    Nat → Nat → List (Nat × Nat)
  | _, 0 => []
  | p, fuel + 1 =>
    match firstMatch matchAt n p with
    | none => []
    | some (q, len) =>
      (q, q + len) ::
        finditerFuel matchAt n (if len = 0 then q + 1 else q + len) fuel

/-- Modelled from the spec: the full span sequence of
`finditer(compiled, subject)` for a subject of length `n`. -/
def finditer (matchAt : Nat → Option Nat) (n : Nat) : List (Nat × Nat) :=
  finditerFuel matchAt n 0 (n + 1)

/-- Spans sorted by start, each with `start ≤ stop`, and pairwise
non-overlapping, relative to a lower bound on the first start. -/
def spansOrdered : Nat → List (Nat × Nat) → Bool
  | _, [] => true
  | b, (s, e) :: rest =>
    decide (b ≤ s) && decide (s ≤ e) && spansOrdered e rest

/-- Strictly increasing start positions. -/
def startsStrictMono : List (Nat × Nat) → Bool
  | [] => true
  | [_] => true
  | a :: b :: rest => decide (a.1 < b.1) && startsStrictMono (b :: rest)

/-- Modelled from the spec: the Match Collector, turning the engine's span
sequence into `MatchRecord`s; `groupsAt` abstracts the capture-group data
the engine reports for a match over a given span. -/
def collect (matchAt : Nat → Option Nat)
    (groupsAt : Nat → Nat → List (Option Str) × List (Str × Option Str))
    (n : Nat) : List MatchRecord :=
  (finditer matchAt n).map fun se =>
    { start := se.1, stop := se.2,
      positionalGroups := (groupsAt se.1 se.2).1,
      namedGroups := (groupsAt se.1 se.2).2 }

/-- The number of leading occurrences of `c`. -/
def countLeading (c : Char) : Str → Nat
  | [] => 0
  | d :: rest => if d = c then countLeading c rest + 1 else 0

/-- Modelled from the spec: the anchored attempt of the pattern `x*`,
which matches at every position, greedily taking the run of `x`s. -/
def xStarMatchAt (s : Str) (q : Nat) : Option Nat :=
  some (countLeading 'x' (s.drop q))

theorem strip_bs_markup (d : Char) (rest : Str) (h : isMarkupChar d = true) :
    stripMarkup ('\\' :: d :: rest) = d :: stripMarkup rest := by
  simp [stripMarkup, h]

theorem strip_star_star (rest : Str) :
    stripMarkup ('*' :: '*' :: rest) = stripMarkup rest := by
  simp [stripMarkup]

theorem strip_keep (c : Char) (rest : Str) (h1 : c ≠ '\\') (h2 : c ≠ '*') :
    stripMarkup (c :: rest) = c :: stripMarkup rest := by
  rw [stripMarkup.eq_def]
  simp only [h1, h2, if_false, ite_false]

theorem markup_ne_backslash (c : Char) (h : isMarkupChar c = true) :
    c ≠ '\\' := by
  intro hc
  subst hc
  simp [isMarkupChar] at h

theorem star_isMarkup : isMarkupChar '*' = true := by decide

theorem strip_escape_append (l tail : Str) (h : '\\' ∉ l) :
    stripMarkup (escapeChars l ++ tail) = l ++ stripMarkup tail := by
  induction l with
  | nil => simp [escapeChars]
  | cons c l' ih =>
    have hc : c ≠ '\\' := fun hh => h (hh ▸ List.mem_cons_self c l')
    have h' : '\\' ∉ l' := fun hh => h (List.mem_cons_of_mem c hh)
    cases hm : isMarkupChar c with
    | true =>
      have : escapeChars (c :: l') ++ tail =
          '\\' :: c :: (escapeChars l' ++ tail) := by
        simp [escapeChars, hm]
      rw [this, strip_bs_markup c _ hm, ih h', List.cons_append]
    | false =>
      have hcs : c ≠ '*' := by
        intro hh
        rw [hh] at hm
        exact absurd hm (by decide)
      have : escapeChars (c :: l') ++ tail = c :: (escapeChars l' ++ tail) := by
        simp [escapeChars, hm]
      rw [this, strip_keep c _ hc hcs, ih h', List.cons_append]

theorem strip_escape (l : Str) (h : '\\' ∉ l) :
    stripMarkup (escapeChars l) = l := by
  have := strip_escape_append l [] h
  simpa [stripMarkup] using this

theorem slice_recompose (s : Str) (a b : Nat) (hab : a ≤ b) :
    (s.drop a).take (b - a) ++ s.drop b = s.drop a := by
  have := List.drop_take_append_drop s a (b - a)
  rwa [Nat.add_sub_cancel' hab] at this

theorem strip_renderLoop (subject : Str) (hs : '\\' ∉ subject) :
    ∀ (ms : List MatchRecord) (last : Nat), chainOk last ms = true →
      stripMarkup ((renderLoop subject ms last).1) = subject.drop last := by
  intro ms
  induction ms with
  | nil =>
    intro last _
    exact strip_escape _ (fun hh => hs (List.drop_subset last subject hh))
  | cons m rest ih =>
    intro last hchain
    simp only [chainOk, Bool.and_eq_true, decide_eq_true_eq] at hchain
    obtain ⟨⟨h1, h2⟩, h3⟩ := hchain
    have hnm : '\\' ∉ (subject.drop last).take (m.start - last) :=
      fun hh => hs (List.drop_subset last subject
        (List.take_subset _ _ hh))
    have hseg : '\\' ∉ matchText subject m :=
      fun hh => hs (List.drop_subset m.start subject
        (List.take_subset _ _ hh))
    show stripMarkup
        (escapeChars ((subject.drop last).take (m.start - last)) ++
          ('*' :: '*' ::
            (escapeChars (matchText subject m) ++
              '*' :: '*' :: (renderLoop subject rest m.stop).1))) =
      subject.drop last
    rw [strip_escape_append _ _ hnm, strip_star_star,
      strip_escape_append _ _ hseg, strip_star_star, ih m.stop h3]
    simp only [matchText]
    rw [slice_recompose subject m.start m.stop h2,
      slice_recompose subject last m.start h1]

theorem within_of_eq_append (pre x post whole : Str)
    (h : pre ++ x ++ post = whole) : x <:+: whole :=
  ⟨pre, post, h⟩

/-- C1 counterexample: for the subject consisting of a backslash followed
by `a`, with the single (well-formed) match over span `[1, 2)`, the
highlighted text strips to `**a`, not back to the subject: the escaper
does not escape backslashes, so a literal backslash immediately before an
emphasis marker is read as an escape when stripping. -/
theorem roundtrip_fails_on_backslash :
    chainOk 0 [⟨1, 2, [], []⟩] = true ∧
    (renderLoop "\\a".data [⟨1, 2, [], []⟩] 0).1 = "\\**a**".data ∧
    stripMarkup ((renderLoop "\\a".data [⟨1, 2, [], []⟩] 0).1) = "**a".data ∧
    stripMarkup ((renderLoop "\\a".data [⟨1, 2, [], []⟩] 0).1) ≠ "\\a".data :=
  ⟨by decide, by decide, by decide, by decide⟩

/-- C1 (amended): for every subject string containing no backslash and
every well-formed match set (ordered, non-overlapping spans), stripping
all escape markers and emphasis markup from the highlighted text built by
the render step yields the subject exactly. -/
theorem roundtrip_highlighted (subject : Str) (ms : List MatchRecord)
    (hs : '\\' ∉ subject) (hwf : chainOk 0 ms = true) :
    stripMarkup ((renderLoop subject ms 0).1) = subject := by
  have h := strip_renderLoop subject hs ms 0 hwf
  simpa using h

theorem roundtrip_highlighted_witness :
    '\\' ∉ "Hello World 123".data ∧
    chainOk 0 [⟨1, 5, [], []⟩, ⟨7, 11, [], []⟩] = true ∧
    stripMarkup ((renderLoop "Hello World 123".data
        [⟨1, 5, [], []⟩, ⟨7, 11, [], []⟩] 0).1) = "Hello World 123".data :=
  ⟨by decide, by decide,
    roundtrip_highlighted "Hello World 123".data
      [⟨1, 5, [], []⟩, ⟨7, 11, [], []⟩] (by decide) (by decide)⟩

theorem renderLoop_snd (subject : Str) :
    ∀ (ms : List MatchRecord) (last : Nat),
      (renderLoop subject ms last).2 = ms.map (matchDetail subject) := by
  intro ms
  induction ms with
  | nil => intro last; rfl
  | cons m rest ih =>
    intro last
    simp [renderLoop, ih]

theorem mem_joinSep (sep : Str) :
    ∀ (xs : List Str) (x : Str), x ∈ xs → x <:+: joinSep sep xs := by
  intro xs
  induction xs with
  | nil =>
    intro x hx
    cases hx
  | cons a rest ih =>
    intro x hx
    cases rest with
    | nil =>
      have : x = a := by
        rcases List.mem_cons.mp hx with h | h
        · exact h
        · cases h
      subst this
      exact List.infix_rfl
    | cons b t =>
      rcases List.mem_cons.mp hx with h | h
      · subst h
        exact ⟨[], sep ++ joinSep sep (b :: t), by simp [joinSep]⟩
      · exact (ih x h).trans
          ⟨a ++ sep, [], by simp [joinSep]⟩

theorem escText_in_detail (subject : Str) (m : MatchRecord) :
    escapeChars (matchText subject m) <:+: matchDetail subject m :=
  within_of_eq_append "- **Match**: `".data
    (escapeChars (matchText subject m))
    ("` ".data ++ spanText m ++ groupsSection m ++ namedSection m)
    (matchDetail subject m)
    (by simp [matchDetail, detailHead, List.append_assoc])

theorem spanText_in_detail (subject : Str) (m : MatchRecord) :
    spanText m <:+: matchDetail subject m :=
  within_of_eq_append
    ("- **Match**: `".data ++ escapeChars (matchText subject m) ++ "` ".data)
    (spanText m)
    (groupsSection m ++ namedSection m)
    (matchDetail subject m)
    (by simp [matchDetail, detailHead, List.append_assoc])

theorem groupPart_in_detail (subject : Str) (m : MatchRecord) (g : Option Str)
    (hg : g ∈ m.positionalGroups) :
    groupPart g <:+: matchDetail subject m := by
  have hne : m.positionalGroups ≠ [] := by
    intro h
    rw [h] at hg
    cases hg
  have h1 : groupPart g <:+:
      joinSep ", ".data (m.positionalGroups.map groupPart) :=
    mem_joinSep _ _ _ (List.mem_map_of_mem groupPart hg)
  have h2 : joinSep ", ".data (m.positionalGroups.map groupPart) <:+:
      groupsSection m :=
    within_of_eq_append
      ("\n  - Groups (".data ++
        Nat.toDigits 10 m.positionalGroups.length ++ "): (".data)
      (joinSep ", ".data (m.positionalGroups.map groupPart))
      ")".data
      (groupsSection m)
      (by simp [groupsSection, hne, List.append_assoc])
  have h3 : groupsSection m <:+: matchDetail subject m :=
    within_of_eq_append (detailHead subject m) (groupsSection m)
      (namedSection m) (matchDetail subject m)
      (by simp [matchDetail, List.append_assoc])
  exact h1.trans (h2.trans h3)

theorem namedPart_in_detail (subject : Str) (m : MatchRecord)
    (p : Str × Option Str) (hp : p ∈ m.namedGroups) :
    namedPart p <:+: matchDetail subject m := by
  have hne : m.namedGroups ≠ [] := by
    intro h
    rw [h] at hp
    cases hp
  have h1 : namedPart p <:+:
      joinSep ", ".data (m.namedGroups.map namedPart) :=
    mem_joinSep _ _ _ (List.mem_map_of_mem namedPart hp)
  have h2 : joinSep ", ".data (m.namedGroups.map namedPart) <:+:
      namedSection m :=
    within_of_eq_append
      "\n  - Named Groups: \x7b".data
      (joinSep ", ".data (m.namedGroups.map namedPart))
      "\x7d".data
      (namedSection m)
      (by simp [namedSection, hne, List.append_assoc])
  have h3 : namedSection m <:+: matchDetail subject m :=
    within_of_eq_append (detailHead subject m ++ groupsSection m)
      (namedSection m) [] (matchDetail subject m)
      (by simp [matchDetail, List.append_assoc])
  exact h1.trans (h2.trans h3)

/-- C2: the builder produces exactly one detail entry per match, in match
order (the entry list is the pointwise rendering of the match list), and
each entry contains the escaped matched text, the span, each rendered
positional group value (an absent group rendered as the literal `None`,
which is not the empty string), and each rendered named-group binding
whenever named groups exist. -/
theorem detail_entries_correct (subject : Str) (ms : List MatchRecord)
    (last : Nat) :
    (renderLoop subject ms last).2 = ms.map (matchDetail subject) ∧
    (renderLoop subject ms last).2.length = ms.length ∧
    renderGroupVal none = "None".data ∧
    "None".data ≠ ([] : Str) ∧
    (∀ m : MatchRecord, m ∈ ms →
      escapeChars (matchText subject m) <:+: matchDetail subject m ∧
      spanText m <:+: matchDetail subject m ∧
      (∀ g : Option Str, g ∈ m.positionalGroups →
        groupPart g <:+: matchDetail subject m) ∧
      (m.namedGroups ≠ [] → ∀ p : Str × Option Str, p ∈ m.namedGroups →
        namedPart p <:+: matchDetail subject m)) := by
  refine ⟨renderLoop_snd subject ms last, ?_, rfl, by decide, ?_⟩
  · rw [renderLoop_snd subject ms last]
    exact List.length_map ms (matchDetail subject)
  · intro m _
    exact ⟨escText_in_detail subject m, spanText_in_detail subject m,
      fun g hg => groupPart_in_detail subject m g hg,
      fun _ p hp => namedPart_in_detail subject m p hp⟩

def sampleRecord : MatchRecord :=
  ⟨0, 1, [some "a".data, none], [("w".data, some "a".data)]⟩

theorem detail_entries_correct_witness :
    (renderLoop "ab".data [sampleRecord] 0).2 =
      [matchDetail "ab".data sampleRecord] ∧
    groupPart (some "a".data) <:+: matchDetail "ab".data sampleRecord ∧
    namedPart ("w".data, some "a".data) <:+:
      matchDetail "ab".data sampleRecord :=
  ⟨(detail_entries_correct "ab".data [sampleRecord] 0).1,
    (((detail_entries_correct "ab".data [sampleRecord] 0).2.2.2.2
        sampleRecord (by decide)).2.2.1 (some "a".data) (by decide)),
    (((detail_entries_correct "ab".data [sampleRecord] 0).2.2.2.2
        sampleRecord (by decide)).2.2.2 (by decide)
      ("w".data, some "a".data) (by decide))⟩

theorem escape_append (a b : Str) :
    escapeChars (a ++ b) = escapeChars a ++ escapeChars b := by
  induction a with
  | nil => simp [escapeChars]
  | cons c a' ih =>
    cases hm : isMarkupChar c <;> simp [escapeChars, hm, ih]

/-- C9: the escaper is a pure total function: it maps the empty string to
itself, distributes over concatenation, turns each character of the fixed
markup-significant set (which contains the emphasis markers, backtick,
brackets, parentheses, exclamation, hash, hyphen, plus and period) into a
backslash followed by that character, leaves every other character
unchanged, and applying it twice escapes again rather than deduplicating. -/
theorem escaper_correct :
    escapeChars [] = [] ∧
    (∀ a b : Str, escapeChars (a ++ b) = escapeChars a ++ escapeChars b) ∧
    (∀ c : Char, isMarkupChar c = true → escapeChars [c] = ['\\', c]) ∧
    (∀ c : Char, isMarkupChar c = false → escapeChars [c] = [c]) ∧
    (isMarkupChar '*' && isMarkupChar '_' && isMarkupChar '`' &&
      isMarkupChar '[' && isMarkupChar ']' && isMarkupChar '(' &&
      isMarkupChar ')' && isMarkupChar '!' && isMarkupChar '#' &&
      isMarkupChar '-' && isMarkupChar '+' && isMarkupChar '.') = true ∧
    escapeChars (escapeChars ['*']) = ['\\', '\\', '*'] := by
  refine ⟨rfl, escape_append, ?_, ?_, by decide, by decide⟩
  · intro c h
    simp [escapeChars, h]
  · intro c h
    simp [escapeChars, h]

theorem escaper_correct_witness :
    isMarkupChar '*' = true ∧ escapeChars ['*'] = ['\\', '*'] ∧
    isMarkupChar 'a' = false ∧ escapeChars ['a'] = ['a'] ∧
    escapeChars ("a".data ++ "*".data) =
      escapeChars "a".data ++ escapeChars "*".data :=
  ⟨by decide, escaper_correct.2.2.1 '*' (by decide), by decide,
    escaper_correct.2.2.2.1 'a' (by decide),
    escaper_correct.2.1 "a".data "*".data⟩

theorem firstMatchAux_bounds (matchAt : Nat → Option Nat) :
    ∀ (k p q len : Nat), firstMatchAux matchAt p k = some (q, len) →
      p ≤ q ∧ q < p + k ∧ matchAt q = some len := by
  intro k
  induction k with
  | zero =>
    intro p q len h
    simp [firstMatchAux] at h
  | succ k ih =>
    intro p q len h
    cases hm : matchAt p with
    | some l =>
      simp [firstMatchAux, hm] at h
      obtain ⟨rfl, rfl⟩ := h
      exact ⟨Nat.le_refl p, by omega, hm⟩
    | none =>
      simp [firstMatchAux, hm] at h
      obtain ⟨h1, h2, h3⟩ := ih (p + 1) q len h
      exact ⟨by omega, by omega, h3⟩

theorem firstMatch_bounds (matchAt : Nat → Option Nat) (n p q len : Nat)
    (h : firstMatch matchAt n p = some (q, len)) : p ≤ q ∧ q ≤ n := by
  by_cases hp : p ≤ n
  · obtain ⟨h1, h2, _⟩ := firstMatchAux_bounds matchAt (n + 1 - p) p q len h
    exact ⟨h1, by omega⟩
  · exfalso
    have hz : n + 1 - p = 0 := by omega
    rw [firstMatch, hz] at h
    simp [firstMatchAux] at h

theorem finditerFuel_ordered (matchAt : Nat → Option Nat) (n : Nat) :
    ∀ (fuel p b : Nat), b ≤ p →
      spansOrdered b (finditerFuel matchAt n p fuel) = true := by
  intro fuel
  induction fuel with
  | zero =>
    intro p b _
    rfl
  | succ fuel ih =>
    intro p b hb
    cases hfm : firstMatch matchAt n p with
    | none => simp [finditerFuel, hfm, spansOrdered]
    | some ql =>
      obtain ⟨q, len⟩ := ql
      obtain ⟨h1, h2⟩ := firstMatch_bounds matchAt n p q len hfm
      simp only [finditerFuel, hfm, spansOrdered, Bool.and_eq_true,
        decide_eq_true_eq]
      refine ⟨⟨by omega, by omega⟩, ?_⟩
      by_cases hl : len = 0
      · simp only [hl, if_true, Nat.add_zero, if_pos]
        exact ih (q + 1) q (by omega)
      · rw [if_neg hl]
        exact ih (q + len) (q + len) (Nat.le_refl _)

theorem chainOk_of_spans
    (groupsAt : Nat → Nat → List (Option Str) × List (Str × Option Str)) :
    ∀ (spans : List (Nat × Nat)) (b : Nat), spansOrdered b spans = true →
      chainOk b (spans.map fun se =>
        ⟨se.1, se.2, (groupsAt se.1 se.2).1, (groupsAt se.1 se.2).2⟩) = true := by
  intro spans
  induction spans with
  | nil =>
    intro b _
    rfl
  | cons se rest ih =>
    intro b h
    obtain ⟨s, e⟩ := se
    simp only [spansOrdered, Bool.and_eq_true, decide_eq_true_eq] at h
    obtain ⟨⟨hb, hse⟩, hrest⟩ := h
    simp only [List.map_cons, chainOk, Bool.and_eq_true, decide_eq_true_eq]
    exact ⟨⟨hb, hse⟩, ih e hrest⟩

/-- C3: for every engine behavior (anchored-attempt function and group
data) and every subject length, the record sequence produced by the
leftmost non-overlapping scan is ordered: starts ascend, each record has
`start ≤ stop`, and each record's stop is at most the next record's
start. -/
theorem collect_ordered (matchAt : Nat → Option Nat)
    (groupsAt : Nat → Nat → List (Option Str) × List (Str × Option Str))
    (n : Nat) :
    chainOk 0 (collect matchAt groupsAt n) = true ∧
    spansOrdered 0 (finditer matchAt n) = true :=
  ⟨chainOk_of_spans groupsAt (finditer matchAt n) 0
      (finditerFuel_ordered matchAt n (n + 1) 0 0 (Nat.le_refl 0)),
    finditerFuel_ordered matchAt n (n + 1) 0 0 (Nat.le_refl 0)⟩

theorem finditerFuel_nil (matchAt : Nat → Option Nat) (n : Nat) :
    ∀ (fuel p : Nat), n < p → finditerFuel matchAt n p fuel = [] := by
  intro fuel p hp
  cases fuel with
  | zero => rfl
  | succ fuel =>
    have hz : n + 1 - p = 0 := by omega
    simp [finditerFuel, firstMatch, hz, firstMatchAux]

theorem finditerFuel_stable (matchAt : Nat → Option Nat) (n : Nat) :
    ∀ (f1 f2 p : Nat), n + 1 - p ≤ f1 → n + 1 - p ≤ f2 →
      finditerFuel matchAt n p f1 = finditerFuel matchAt n p f2 := by
  intro f1
  induction f1 with
  | zero =>
    intro f2 p h1 _
    have hp : n < p := by omega
    rw [finditerFuel_nil matchAt n f2 p hp]
    rfl
  | succ f1 ih =>
    intro f2 p h1 h2
    by_cases hp : n < p
    · rw [finditerFuel_nil matchAt n (f1 + 1) p hp,
        finditerFuel_nil matchAt n f2 p hp]
    · obtain ⟨f2', rfl⟩ : ∃ f2', f2 = f2' + 1 := ⟨f2 - 1, by omega⟩
      cases hfm : firstMatch matchAt n p with
      | none => simp [finditerFuel, hfm]
      | some ql =>
        obtain ⟨q, len⟩ := ql
        obtain ⟨hq1, hq2⟩ := firstMatch_bounds matchAt n p q len hfm
        simp only [finditerFuel, hfm]
        have hple : q + 1 ≤ (if len = 0 then q + 1 else q + len) := by
          by_cases hl : len = 0
          · simp [hl]
          · rw [if_neg hl]
            omega
        rw [ih f2' (if len = 0 then q + 1 else q + len) (by omega) (by omega)]

/-- C8: for pattern `x*` and subject `abc`, the scan yields the four
zero-width matches at positions 0 through 3, the spans are non-overlapping
with strictly increasing starts (the position advances monotonically and
input is never re-processed), and the loop terminates: any fuel beyond the
sufficient bound yields the same finite result. -/
theorem zero_width_scan_terminates :
    finditer (xStarMatchAt "abc".data) 3 = [(0, 0), (1, 1), (2, 2), (3, 3)] ∧
    spansOrdered 0 (finditer (xStarMatchAt "abc".data) 3) = true ∧
    startsStrictMono (finditer (xStarMatchAt "abc".data) 3) = true ∧
    ((finditer (xStarMatchAt "abc".data) 3).all fun se =>
      decide (se.1 = se.2)) = true ∧
    (∀ extra : Nat,
      finditerFuel (xStarMatchAt "abc".data) 3 0 (4 + extra) =
        finditer (xStarMatchAt "abc".data) 3) := by
  refine ⟨by decide, by decide, by decide, by decide, ?_⟩
  intro extra
  exact finditerFuel_stable (xStarMatchAt "abc".data) 3 (4 + extra) 4 0
    (by omega) (by omega)

theorem within_append_of_eq (pre x post lit : Str)
    (hlit : pre ++ x ++ post = lit) (tail : Str) : x <:+: lit ++ tail :=
  ⟨pre, post ++ tail, by rw [← hlit]; simp [List.append_assoc]⟩

/-- C4: whenever compilation of a non-empty pattern fails (with a
`re.error` or any other exception), the run ends with the red error marker
and the failure message in the status, an error document containing the
message, a non-empty status and document, and a result that does not
depend on the scan function at all (match collection is never
attempted). -/
theorem compile_failure_handled {π : Type} (compile : Str → CompileOutcome π)
    (scan : π → Str → Except Str (List MatchRecord))
    (pattern subject e : Str) (hp : pattern ≠ [])
    (hc : compile pattern = .reError e ∨ compile pattern = .exnError e) :
    (updateMatches compile scan pattern subject =
        ⟨invalidStatus e, regexErrorDoc e⟩ ∨
      updateMatches compile scan pattern subject =
        ⟨unexpectedStatus e, unexpectedDoc e⟩) ∧
    e <:+: (updateMatches compile scan pattern subject).status ∧
    e <:+: (updateMatches compile scan pattern subject).document ∧
    "[b red]".data <:+: (updateMatches compile scan pattern subject).status ∧
    (updateMatches compile scan pattern subject).status ≠ [] ∧
    (updateMatches compile scan pattern subject).document ≠ [] ∧
    (∀ scan₂ : π → Str → Except Str (List MatchRecord),
      updateMatches compile scan₂ pattern subject =
        updateMatches compile scan pattern subject) := by
  rcases hc with hc | hc
  · have hres : updateMatches compile scan pattern subject =
        ⟨invalidStatus e, regexErrorDoc e⟩ := by
      simp [updateMatches, hp, hc]
    rw [hres]
    refine ⟨Or.inl rfl, ?_, ?_, ?_, ?_, ?_, ?_⟩
    · exact ⟨"Regex Status: [b red]Invalid[/b] - ".data, [],
        by simp [invalidStatus]⟩
    · exact ⟨"### Regex Error\n\n```\n".data, "\n```".data, rfl⟩
    · exact within_append_of_eq "Regex Status: ".data "[b red]".data
        "Invalid[/b] - ".data "Regex Status: [b red]Invalid[/b] - ".data
        (by decide) e
    · simp [invalidStatus]
    · simp [regexErrorDoc]
    · intro scan₂
      simp [updateMatches, hp, hc]
  · have hres : updateMatches compile scan pattern subject =
        ⟨unexpectedStatus e, unexpectedDoc e⟩ := by
      simp [updateMatches, hp, hc]
    rw [hres]
    refine ⟨Or.inr rfl, ?_, ?_, ?_, ?_, ?_, ?_⟩
    · exact ⟨"Regex Status: [b red]Error[/b] - Unexpected: ".data, [],
        by simp [unexpectedStatus]⟩
    · exact ⟨"### Unexpected Compilation Error\n\n```\n".data, "\n```".data,
        rfl⟩
    · exact within_append_of_eq "Regex Status: ".data "[b red]".data
        "Error[/b] - Unexpected: ".data
        "Regex Status: [b red]Error[/b] - Unexpected: ".data
        (by decide) e
    · simp [unexpectedStatus]
    · simp [unexpectedDoc]
    · intro scan₂
      simp [updateMatches, hp, hc]

def sampleCompileRe : Str → CompileOutcome Unit :=
  fun _ => CompileOutcome.reError "e1".data

def sampleScanNone : Unit → Str → Except Str (List MatchRecord) :=
  fun _ _ => Except.ok []

theorem compile_failure_handled_witness :
    (updateMatches sampleCompileRe sampleScanNone "(".data "abc".data =
        ⟨invalidStatus "e1".data, regexErrorDoc "e1".data⟩ ∨
      updateMatches sampleCompileRe sampleScanNone "(".data "abc".data =
        ⟨unexpectedStatus "e1".data, unexpectedDoc "e1".data⟩) ∧
    "e1".data <:+:
      (updateMatches sampleCompileRe sampleScanNone "(".data "abc".data).status ∧
    "e1".data <:+:
      (updateMatches sampleCompileRe sampleScanNone "(".data "abc".data).document :=
  ⟨(compile_failure_handled sampleCompileRe sampleScanNone
      "(".data "abc".data "e1".data (by decide) (Or.inl rfl)).1,
    (compile_failure_handled sampleCompileRe sampleScanNone
      "(".data "abc".data "e1".data (by decide) (Or.inl rfl)).2.1,
    (compile_failure_handled sampleCompileRe sampleScanNone
      "(".data "abc".data "e1".data (by decide) (Or.inl rfl)).2.2.1⟩

/-- C5: with an empty pattern the run ends in the neutral
"enter a pattern" status and placeholder document, for every subject and
for every compile and scan function (so nothing is compiled); with a
non-empty pattern that compiles and an empty subject, the run ends with
the valid status and the "enter a test string" placeholder document, for
every scan function (so nothing is scanned). -/
theorem empty_inputs_behavior {π : Type} (compile : Str → CompileOutcome π)
    (scan : π → Str → Except Str (List MatchRecord))
    (pattern subject : Str) (c : π) :
    (updateMatches compile scan [] subject =
      ⟨enterPatternStatus, enterPatternDoc⟩) ∧
    (∀ (compile₂ : Str → CompileOutcome π)
      (scan₂ : π → Str → Except Str (List MatchRecord)),
      updateMatches compile₂ scan₂ [] subject =
        updateMatches compile scan [] subject) ∧
    (pattern ≠ [] → compile pattern = .ok c →
      updateMatches compile scan pattern [] =
        ⟨validStatus, enterTestDoc⟩ ∧
      (∀ scan₂ : π → Str → Except Str (List MatchRecord),
        updateMatches compile scan₂ pattern [] =
          updateMatches compile scan pattern [])) := by
  refine ⟨rfl, fun _ _ => rfl, ?_⟩
  intro hp hc
  constructor
  · simp [updateMatches, hp, hc]
  · intro scan₂
    simp [updateMatches, hp, hc]

def sampleCompileOk : Str → CompileOutcome Unit :=
  fun _ => CompileOutcome.ok ()

theorem empty_inputs_behavior_witness :
    updateMatches sampleCompileOk sampleScanNone [] "abc".data =
      ⟨enterPatternStatus, enterPatternDoc⟩ ∧
    updateMatches sampleCompileOk sampleScanNone "a+".data [] =
      ⟨validStatus, enterTestDoc⟩ :=
  ⟨(empty_inputs_behavior sampleCompileOk sampleScanNone
      "a+".data "abc".data ()).1,
    ((empty_inputs_behavior sampleCompileOk sampleScanNone
      "a+".data [] ()).2.2 (by decide) rfl).1⟩

/-- C6: when the scan over a non-empty subject with a successfully
compiled pattern raises, the run catches the failure and ends with the
"error during matching" status carrying the message and an error document
carrying the message, both non-empty, and returns normally (the model is a
total function). -/
theorem scan_failure_handled {π : Type} (compile : Str → CompileOutcome π)
    (scan : π → Str → Except Str (List MatchRecord))
    (pattern subject e : Str) (c : π) (hp : pattern ≠ [])
    (hc : compile pattern = .ok c) (hs : subject ≠ [])
    (hscan : scan c subject = .error e) :
    updateMatches compile scan pattern subject =
      ⟨matchingErrorStatus e, matchingErrorDoc e⟩ ∧
    e <:+: (updateMatches compile scan pattern subject).status ∧
    e <:+: (updateMatches compile scan pattern subject).document ∧
    (updateMatches compile scan pattern subject).status ≠ [] ∧
    (updateMatches compile scan pattern subject).document ≠ [] := by
  have hres : updateMatches compile scan pattern subject =
      ⟨matchingErrorStatus e, matchingErrorDoc e⟩ := by
    simp [updateMatches, hp, hc, hs, hscan]
  rw [hres]
  refine ⟨rfl, ?_, ?_, ?_, ?_⟩
  · exact ⟨"Regex Status: [b red]Error during matching[/b] - ".data, [],
      by simp [matchingErrorStatus]⟩
  · exact ⟨"### Matching Error\n\n```\n".data, "\n```".data, rfl⟩
  · simp [matchingErrorStatus]
  · simp [matchingErrorDoc]

def sampleScanErr : Unit → Str → Except Str (List MatchRecord) :=
  fun _ _ => Except.error "boom".data

theorem scan_failure_handled_witness :
    updateMatches sampleCompileOk sampleScanErr "a+".data "abc".data =
      ⟨matchingErrorStatus "boom".data, matchingErrorDoc "boom".data⟩ ∧
    "boom".data <:+:
      (updateMatches sampleCompileOk sampleScanErr "a+".data "abc".data).status :=
  ⟨(scan_failure_handled sampleCompileOk sampleScanErr
      "a+".data "abc".data "boom".data () (by decide) rfl (by decide) rfl).1,
    (scan_failure_handled sampleCompileOk sampleScanErr
      "a+".data "abc".data "boom".data () (by decide) rfl (by decide) rfl).2.1⟩

/-- C7: for a compiling pattern and a non-empty subject with zero matches,
the resulting document is the "no matches found" message containing the
fully escaped subject; the no-match document built for an empty subject is
the generic "no matches" message. -/
theorem no_matches_behavior {π : Type} (compile : Str → CompileOutcome π)
    (scan : π → Str → Except Str (List MatchRecord))
    (pattern subject : Str) (c : π) (hp : pattern ≠ [])
    (hc : compile pattern = .ok c) (hs : subject ≠ [])
    (hscan : scan c subject = .ok []) :
    updateMatches compile scan pattern subject =
      ⟨validStatus, noMatchesDoc subject⟩ ∧
    noMatchesDoc subject =
      "No matches found in:\n\n".data ++ escapeChars subject ∧
    escapeChars subject <:+: noMatchesDoc subject ∧
    noMatchesDoc [] = "No matches found.".data := by
  refine ⟨?_, ?_, ?_, rfl⟩
  · simp [updateMatches, hp, hc, hs, hscan, renderLoop]
  · simp [noMatchesDoc, hs]
  · exact ⟨"No matches found in:\n\n".data, [],
      by simp [noMatchesDoc, hs]⟩

theorem no_matches_behavior_witness :
    updateMatches sampleCompileOk sampleScanNone "foo".data "bar".data =
      ⟨validStatus, noMatchesDoc "bar".data⟩ ∧
    escapeChars "bar".data <:+: noMatchesDoc "bar".data ∧
    noMatchesDoc [] = "No matches found.".data :=
  ⟨(no_matches_behavior sampleCompileOk sampleScanNone
      "foo".data "bar".data () (by decide) rfl (by decide) rfl).1,
    (no_matches_behavior sampleCompileOk sampleScanNone
      "foo".data "bar".data () (by decide) rfl (by decide) rfl).2.2.1,
    (no_matches_behavior sampleCompileOk sampleScanNone
      "foo".data "bar".data () (by decide) rfl (by decide) rfl).2.2.2⟩

/-- C10: every invocation of the recompute step, for every compile and
scan behavior and every starting state (hence on every path), leaves the
reactive fields `regex_pattern` and `test_string` unchanged, and the
resulting state is the old state with only `status` and `document`
replaced by the recompute outputs. -/
theorem update_frame {π : Type} (compile : Str → CompileOutcome π)
    (scan : π → Str → Except Str (List MatchRecord)) (st : AppState) :
    (updateMatchesState compile scan st).regex_pattern = st.regex_pattern ∧
    (updateMatchesState compile scan st).test_string = st.test_string ∧
    updateMatchesState compile scan st =
      { st with
        status :=
          (updateMatches compile scan st.regex_pattern st.test_string).status,
        document :=
          (updateMatches compile scan st.regex_pattern
            st.test_string).document } :=
  ⟨rfl, rfl, rfl⟩
